import Mathlib

/-!
Verification of the Jack VM translator (C sources: `parser.c`, `code_writer.c`,
`vmtranslator.c`).  The development shallowly embeds the two core modules —
the command parser and the Hack-assembly code writer — as executable Lean
functions translated from the C source, together with a small operational
semantics of the emitted Hack assembly, and proves (or refutes) the frozen
specification claims about them.

Modelling conventions:
* C `char *` strings that may be NULL are `Option String`; non-null strings
  are `String` or `List Char`.
* C `int` is `Int` (no claim exercises 32-bit overflow of these values);
  the 16-bit Hack machine word is `Int` wrapped with `w16` after every
  arithmetic ALU operation.
* The 1024-byte `assembly_instructions` buffer of `code_writer.c` is elided:
  every fragment emitted for the inputs relevant to the claims is far below
  1024 bytes, so the `CODE_WRITER_FAIL_WRITE` exits caused by buffer
  exhaustion are unreachable there; the `FAIL_WRITE` exits caused by a
  fragment generator returning NULL (out-of-range pointer/temp index,
  missing filename) are modelled faithfully via `Option`.
* Output is modelled functionally: each writer entry point returns the
  status, the new writer state, and the text appended to the output file
  (the empty string when the C code returns without reaching `fwrite`).
-/

/-- Decimal digit character, as produced by `snprintf` `%d`/`%u`:
digit `d` (0 ≤ d ≤ 9) renders as the ASCII character `'0' + d`. -/
def digitChar (d : Nat) : Char := Char.ofNat (48 + d)

/-- Decimal rendering of a natural number, most significant digit first,
as produced by `snprintf` with `%d`/`%u` for non-negative values. -/
def natReprChars (n : Nat) : List Char :=
  if n = 0 then ['0'] else ((Nat.digits 10 n).map digitChar).reverse

/-- Decimal rendering of a natural number as a `String`. -/
def natRepr (n : Nat) : String := String.mk (natReprChars n)

/-- Decimal rendering of a C `int`, as produced by `snprintf` `%d`. -/
def intRepr (z : Int) : String :=
  if z < 0 then String.mk ('-' :: natReprChars (-z).toNat) else natRepr z.toNat

/-- Inverse of `digitChar` on actual digits. -/
def charToDigit (c : Char) : Nat := c.toNat - 48

theorem charToDigit_digitChar {d : Nat} (h : d < 10) :
    charToDigit (digitChar d) = d := by
  interval_cases d <;> decide

theorem map_digitChar_roundtrip (l : List Nat) (h : ∀ d ∈ l, d < 10) :
    (l.map digitChar).map charToDigit = l := by
  induction l with
  | nil => rfl
  | cons a t ih =>
      simp only [List.map_cons, List.cons.injEq]
      exact ⟨charToDigit_digitChar (h a (List.mem_cons_self a t)),
        ih fun d hd => h d (List.mem_cons_of_mem a hd)⟩

theorem natReprChars_injective : Function.Injective natReprChars := by
  intro m n h
  have key : ∀ k : Nat, k ≠ 0 →
      ((Nat.digits 10 k).map digitChar).reverse = ['0'] → False := by
    intro k hk hrev
    have h1 : (Nat.digits 10 k).map digitChar = ['0'] := by
      have := congrArg List.reverse hrev
      simpa using this
    have h2 : Nat.digits 10 k = [charToDigit '0'] := by
      have := congrArg (List.map charToDigit) h1
      rwa [map_digitChar_roundtrip _
        (fun d hd => Nat.digits_lt_base (by norm_num) hd)] at this
    have h3 : k = Nat.ofDigits 10 (Nat.digits 10 k) :=
      (Nat.ofDigits_digits 10 k).symm
    rw [h2] at h3
    simp [Nat.ofDigits] at h3
    exact hk h3
  unfold natReprChars at h
  by_cases hm : m = 0 <;> by_cases hn : n = 0
  · rw [hm, hn]
  · rw [if_pos hm, if_neg hn] at h
    exact absurd h.symm (fun hh => key n hn hh)
  · rw [if_neg hm, if_pos hn] at h
    exact absurd h (fun hh => key m hm hh)
  · rw [if_neg hm, if_neg hn] at h
    have h1 : (Nat.digits 10 m).map digitChar = (Nat.digits 10 n).map digitChar := by
      have := congrArg List.reverse h
      simpa using this
    have h2 := congrArg (List.map charToDigit) h1
    rw [map_digitChar_roundtrip _ (fun d hd => Nat.digits_lt_base (by norm_num) hd),
        map_digitChar_roundtrip _ (fun d hd => Nat.digits_lt_base (by norm_num) hd)] at h2
    exact Nat.digits_inj_iff.mp h2

theorem natRepr_injective : Function.Injective natRepr := by
  intro m n h
  apply natReprChars_injective
  have := congrArg String.data h
  simpa [natRepr] using this

/-! ## Code writer model (from `code_writer.c` / `code_writer.h`) -/

/-- `CommandType` from `translator_common.h`. -/
inductive CommandType
  | C_ARITHMETIC | C_PUSH | C_POP | C_LABEL | C_GOTO | C_IF
  | C_FUNCTION | C_RETURN | C_CALL
  deriving DecidableEq, Repr

/-- `CodeWriterStatus` from `code_writer.h`. -/
inductive CodeWriterStatus
  | CODE_WRITER_INVALID_ARITHMETIC_CMD
  | CODE_WRITER_INVALID_PUSH_POP_CMD
  | CODE_WRITER_INVALID_PUSH_POP_SEGMENT
  | CODE_WRITER_INVALID_PUSH_POP_INDEX
  | CODE_WRITER_FAIL_WRITE
  | CODE_WRITER_SUCC
  deriving DecidableEq, Repr

/-- `ArithmeticLogicalCommandType` from `code_writer.c`. -/
inductive ArithmeticLogicalCommandType
  | ARITHMETIC_LOGICAL_ADD | ARITHMETIC_LOGICAL_SUB | ARITHMETIC_LOGICAL_NEG
  | ARITHMETIC_LOGICAL_EQ | ARITHMETIC_LOGICAL_GT | ARITHMETIC_LOGICAL_LT
  | ARITHMETIC_LOGICAL_AND | ARITHMETIC_LOGICAL_OR | ARITHMETIC_LOGICAL_NOT
  deriving DecidableEq, Repr

/-- `MemorySegmentType` from `code_writer.c`. -/
inductive MemorySegmentType
  | MEMORY_SEGMENT_ARGUMENT | MEMORY_SEGMENT_LOCAL | MEMORY_SEGMENT_STATIC
  | MEMORY_SEGMENT_CONSTANT | MEMORY_SEGMENT_THIS | MEMORY_SEGMENT_THAT
  | MEMORY_SEGMENT_POINTER | MEMORY_SEGMENT_TEMP
  deriving DecidableEq, Repr

open ArithmeticLogicalCommandType MemorySegmentType CommandType CodeWriterStatus

/-- `arithmetic_logical_cmd_table` from `code_writer.c`: the 9 valid
arithmetic-logical mnemonics, in declaration order. -/
def arithmetic_logical_cmd_table : List (ArithmeticLogicalCommandType × String) :=
  [(ARITHMETIC_LOGICAL_ADD, "add"), (ARITHMETIC_LOGICAL_SUB, "sub"),
   (ARITHMETIC_LOGICAL_NEG, "neg"), (ARITHMETIC_LOGICAL_EQ, "eq"),
   (ARITHMETIC_LOGICAL_GT, "gt"), (ARITHMETIC_LOGICAL_LT, "lt"),
   (ARITHMETIC_LOGICAL_AND, "and"), (ARITHMETIC_LOGICAL_OR, "or"),
   (ARITHMETIC_LOGICAL_NOT, "not")]

/-- The table lookup loop of `code_writer_write_arithmetic` (strlen+strcmp
equality against each entry, first hit wins). -/
def lookupArithmeticCommand (cmd : String) : Option ArithmeticLogicalCommandType :=
  (arithmetic_logical_cmd_table.find? (fun e => e.2 == cmd)).map (·.1)

/-- Mnemonic of an operation (`arithmetic_logical_cmd_table[command_type].command`,
the table being indexed by the enum value). -/
def arithCommandName : ArithmeticLogicalCommandType → String
  | ARITHMETIC_LOGICAL_ADD => "add" | ARITHMETIC_LOGICAL_SUB => "sub"
  | ARITHMETIC_LOGICAL_NEG => "neg" | ARITHMETIC_LOGICAL_EQ => "eq"
  | ARITHMETIC_LOGICAL_GT => "gt" | ARITHMETIC_LOGICAL_LT => "lt"
  | ARITHMETIC_LOGICAL_AND => "and" | ARITHMETIC_LOGICAL_OR => "or"
  | ARITHMETIC_LOGICAL_NOT => "not"

/-- `memory_segment_table` from `code_writer.c`. -/
def memory_segment_table : List (MemorySegmentType × String) :=
  [(MEMORY_SEGMENT_ARGUMENT, "argument"), (MEMORY_SEGMENT_LOCAL, "local"),
   (MEMORY_SEGMENT_STATIC, "static"), (MEMORY_SEGMENT_CONSTANT, "constant"),
   (MEMORY_SEGMENT_THIS, "this"), (MEMORY_SEGMENT_THAT, "that"),
   (MEMORY_SEGMENT_POINTER, "pointer"), (MEMORY_SEGMENT_TEMP, "temp")]

/-- The segment table lookup loop of `code_writer_write_push_pop`. -/
def lookupMemorySegment (segment : String) : Option MemorySegmentType :=
  (memory_segment_table.find? (fun e => e.2 == segment)).map (·.1)

/-- Name of a segment (`memory_segment_table[segment_type].segment`). -/
def segmentName : MemorySegmentType → String
  | MEMORY_SEGMENT_ARGUMENT => "argument" | MEMORY_SEGMENT_LOCAL => "local"
  | MEMORY_SEGMENT_STATIC => "static" | MEMORY_SEGMENT_CONSTANT => "constant"
  | MEMORY_SEGMENT_THIS => "this" | MEMORY_SEGMENT_THAT => "that"
  | MEMORY_SEGMENT_POINTER => "pointer" | MEMORY_SEGMENT_TEMP => "temp"

/-- `struct CodeWriter`: the output `FILE*` is modelled functionally (each
entry point returns the text it appends), leaving the input-file name and
the boolean branch counter. -/
structure CodeWriter where
  input_file : Option String
  boolean_op_count : Nat
  deriving DecidableEq, Repr

/-- `code_writer_init`: fresh writer state (`input_file = "FOO"`, counter 0). -/
def code_writer_init : CodeWriter :=
  { input_file := some "FOO", boolean_op_count := 0 }

/-- `stack_get_top_element_assembly` from `code_writer.c`. -/
def stack_get_top_element_assembly : String := "@SP\nM=M-1\nA=M"

/-- `store_in_register` from `code_writer.c`. -/
def store_in_register : String := "D=M"

/-- `stack_push_element_assembly` from `code_writer.c`. -/
def stack_push_element_assembly : String := "@SP\nA=M\nM=D\n@SP\nM=M+1"

/-- `store_in_memory_register` from `code_writer.c`. -/
def store_in_memory_register : String := "M=D"

/-- `write_unary_operation` from `code_writer.c` (`D=-D` / `D=!D`). -/
def write_unary_operation (operation : ArithmeticLogicalCommandType) : Option String :=
  match operation with
  | ARITHMETIC_LOGICAL_NEG => some "D=-D"
  | ARITHMETIC_LOGICAL_NOT => some "D=!D"
  | _ => none

/-- `write_arithmetic_bitwise_operation` from `code_writer.c` (`D=D?M`). -/
def write_arithmetic_bitwise_operation (operation : ArithmeticLogicalCommandType) :
    Option String :=
  match operation with
  | ARITHMETIC_LOGICAL_ADD => some "D=D+M"
  | ARITHMETIC_LOGICAL_SUB => some "D=D-M"
  | ARITHMETIC_LOGICAL_AND => some "D=D&M"
  | ARITHMETIC_LOGICAL_OR => some "D=D|M"
  | _ => none

/-- The "true" branch label minted by `write_boolean_operation` for counter
value `n`: `BOOLEAN_TRUE.<n>`. -/
def booleanTrueLabel (n : Nat) : String := "BOOLEAN_TRUE." ++ natRepr n

/-- The "continue" branch label minted by `write_boolean_operation` for counter
value `n`: `BOOLEAN_CONTINUE.<n>`. -/
def booleanContinueLabel (n : Nat) : String := "BOOLEAN_CONTINUE." ++ natRepr n

/-- The pair of branch-target labels minted by one boolean comparison. -/
def booleanLabels (n : Nat) : List String :=
  [booleanTrueLabel n, booleanContinueLabel n]

/-- `write_boolean_operation` from `code_writer.c`: the template
`D=D-M / @BOOLEAN_TRUE.%d / D;%s / D=0 / @BOOLEAN_CONTINUE.%d / 0;JMP /
(BOOLEAN_TRUE.%d) / D=-1 / (BOOLEAN_CONTINUE.%d)` instantiated with the
current boolean counter and the jump mnemonic of the operation. -/
def write_boolean_operation (operation : ArithmeticLogicalCommandType)
    (boolean_count : Nat) : Option String :=
  let mk (j : String) : String :=
    "D=D-M\n@" ++ booleanTrueLabel boolean_count ++ "\nD;" ++ j ++
    "\nD=0\n@" ++ booleanContinueLabel boolean_count ++ "\n0;JMP\n(" ++
    booleanTrueLabel boolean_count ++ ")\nD=-1\n(" ++
    booleanContinueLabel boolean_count ++ ")"
  match operation with
  | ARITHMETIC_LOGICAL_EQ => some (mk "JEQ")
  | ARITHMETIC_LOGICAL_GT => some (mk "JGT")
  | ARITHMETIC_LOGICAL_LT => some (mk "JLT")
  | _ => none

/-- `write_constant_index` from `code_writer.c` (`@%d / D=A`). -/
def write_constant_index (constant : Int) : Option String :=
  if constant < 0 then none
  else some ("@" ++ intRepr constant ++ "\nD=A")

/-- `write_symbol_segment` from `code_writer.c` (`@SEG / A=D+M / D=M|A`). -/
def write_symbol_segment (type : MemorySegmentType) (read_address : Bool) :
    Option String :=
  let mk (s : String) : Option String :=
    some ("@" ++ s ++ "\nA=D+M\nD=" ++ (if !read_address then "M" else "A"))
  match type with
  | MEMORY_SEGMENT_ARGUMENT => mk "ARG"
  | MEMORY_SEGMENT_LOCAL => mk "LCL"
  | MEMORY_SEGMENT_THIS => mk "THIS"
  | MEMORY_SEGMENT_THAT => mk "THAT"
  | _ => none

/-- `write_virtual_segment` from `code_writer.c`: pointer segment lives at
`R3+index` (index 0..1), temp segment at `R5+index` (index 0..7); any other
index yields NULL. -/
def write_virtual_segment (type : MemorySegmentType) (index : Int)
    (read_address : Bool) : Option String :=
  if index < 0 then none
  else
    match type with
    | MEMORY_SEGMENT_POINTER =>
        if index ≥ 2 then none
        else some ("@R" ++ intRepr (3 + index) ++ "\nD=" ++
                   (if !read_address then "M" else "A"))
    | MEMORY_SEGMENT_TEMP =>
        if index ≥ 8 then none
        else some ("@R" ++ intRepr (5 + index) ++ "\nD=" ++
                   (if !read_address then "M" else "A"))
    | _ => none

/-- `write_static_segment` from `code_writer.c` (`@%s.%d / D=M|A`). -/
def write_static_segment (filename : Option String) (index : Int)
    (read_address : Bool) : Option String :=
  match filename with
  | none => none
  | some f =>
      if index < 0 then none
      else some ("@" ++ f ++ "." ++ intRepr index ++ "\nD=" ++
                 (if !read_address then "M" else "A"))

/-- `store_in_temp_register` from `code_writer.c` (`@R%d / M=D`, register
index restricted to 13..15). -/
def store_in_temp_register (register_idx : Int) : Option String :=
  if register_idx < 13 ∨ register_idx > 15 then none
  else some ("@R" ++ intRepr register_idx ++ "\nM=D")

/-- `get_in_temp_register` from `code_writer.c` (`@R%d / %c=M`). -/
def get_in_temp_register (register_idx : Int) (is_data_address : Bool) :
    Option String :=
  if register_idx < 13 ∨ register_idx > 15 then none
  else some ("@R" ++ intRepr register_idx ++ "\n" ++
             (if is_data_address then "A" else "D") ++ "=M")

/-- `code_writer_write_arithmetic` from `code_writer.c`.  Returns the status,
the new writer state, and the text appended to the output file (empty when
the C code returns before its single `fwrite`).  A NULL mnemonic and a
mnemonic absent from the table both return
`CODE_WRITER_INVALID_ARITHMETIC_CMD` without touching any state.  On the
boolean path the counter is incremented after the fragment is generated
(in the C, even when the fragment generator fails). -/
def code_writer_write_arithmetic (writer : CodeWriter) (cmd : Option String) :
    CodeWriterStatus × CodeWriter × String :=
  match cmd with
  | none => (CODE_WRITER_INVALID_ARITHMETIC_CMD, writer, "")
  | some c =>
    match lookupArithmeticCommand c with
    | none => (CODE_WRITER_INVALID_ARITHMETIC_CMD, writer, "")
    | some command_type =>
      let comment := "// " ++ arithCommandName command_type ++ "\n"
      let popFirst := stack_get_top_element_assembly ++ "\n" ++
                      store_in_register ++ "\n"
      match command_type with
      | ARITHMETIC_LOGICAL_NEG | ARITHMETIC_LOGICAL_NOT =>
        match write_unary_operation command_type with
        | none => (CODE_WRITER_FAIL_WRITE, writer, "")
        | some u =>
            (CODE_WRITER_SUCC, writer,
             comment ++ popFirst ++ u ++ "\n" ++
             stack_push_element_assembly ++ "\n")
      | ARITHMETIC_LOGICAL_ADD | ARITHMETIC_LOGICAL_SUB
      | ARITHMETIC_LOGICAL_AND | ARITHMETIC_LOGICAL_OR =>
        match write_arithmetic_bitwise_operation command_type with
        | none => (CODE_WRITER_FAIL_WRITE, writer, "")
        | some b =>
            (CODE_WRITER_SUCC, writer,
             comment ++ popFirst ++ stack_get_top_element_assembly ++ "\n" ++
             b ++ "\n" ++ stack_push_element_assembly ++ "\n")
      | _ =>
        let b := write_boolean_operation command_type writer.boolean_op_count
        let writer' : CodeWriter :=
          { writer with boolean_op_count := writer.boolean_op_count + 1 }
        match b with
        | none => (CODE_WRITER_FAIL_WRITE, writer', "")
        | some bs =>
            (CODE_WRITER_SUCC, writer',
             comment ++ popFirst ++ stack_get_top_element_assembly ++ "\n" ++
             bs ++ "\n" ++ stack_push_element_assembly ++ "\n")

/-- The segment-address fragment used by the pop branch of
`code_writer_write_push_pop` (the `read_address = true` switch). -/
def popSegmentFragment (writer : CodeWriter) (segment_type : MemorySegmentType)
    (segment_index : Int) : Option String :=
  match segment_type with
  | MEMORY_SEGMENT_STATIC =>
      write_static_segment writer.input_file segment_index true
  | MEMORY_SEGMENT_ARGUMENT | MEMORY_SEGMENT_LOCAL
  | MEMORY_SEGMENT_THIS | MEMORY_SEGMENT_THAT =>
      match write_constant_index segment_index,
            write_symbol_segment segment_type true with
      | some a, some b => some (a ++ "\n" ++ b)
      | _, _ => none
  | MEMORY_SEGMENT_POINTER | MEMORY_SEGMENT_TEMP =>
      write_virtual_segment segment_type segment_index true
  | MEMORY_SEGMENT_CONSTANT => none

/-- The value fragment used by the push branch of
`code_writer_write_push_pop` (the `read_address = false` switch). -/
def pushSegmentFragment (writer : CodeWriter) (segment_type : MemorySegmentType)
    (segment_index : Int) : Option String :=
  match segment_type with
  | MEMORY_SEGMENT_CONSTANT => write_constant_index segment_index
  | MEMORY_SEGMENT_STATIC =>
      write_static_segment writer.input_file segment_index false
  | MEMORY_SEGMENT_ARGUMENT | MEMORY_SEGMENT_LOCAL
  | MEMORY_SEGMENT_THIS | MEMORY_SEGMENT_THAT =>
      match write_constant_index segment_index,
            write_symbol_segment segment_type false with
      | some a, some b => some (a ++ "\n" ++ b)
      | _, _ => none
  | MEMORY_SEGMENT_POINTER | MEMORY_SEGMENT_TEMP =>
      write_virtual_segment segment_type segment_index false

/-- `code_writer_write_push_pop` from `code_writer.c`.  Validation order as
in the C: command type, NULL segment, segment-table lookup, negative index.
A pop whose segment is `constant` hits the `default` case of the pop switch
and returns `CODE_WRITER_INVALID_PUSH_POP_SEGMENT` (the locally buffered
text is discarded, so nothing is appended).  A NULL fragment generator
(out-of-range pointer/temp index) yields `CODE_WRITER_FAIL_WRITE` with
nothing appended. -/
def code_writer_write_push_pop (writer : CodeWriter) (cmd : CommandType)
    (segment : Option String) (segment_index : Int) :
    CodeWriterStatus × CodeWriter × String :=
  if cmd ≠ C_PUSH ∧ cmd ≠ C_POP then
    (CODE_WRITER_INVALID_PUSH_POP_CMD, writer, "")
  else
    match segment with
    | none => (CODE_WRITER_INVALID_PUSH_POP_SEGMENT, writer, "")
    | some seg =>
      match lookupMemorySegment seg with
      | none => (CODE_WRITER_INVALID_PUSH_POP_SEGMENT, writer, "")
      | some segment_type =>
        if segment_index < 0 then
          (CODE_WRITER_INVALID_PUSH_POP_INDEX, writer, "")
        else
          let comment := "// " ++ (if cmd = C_PUSH then "push" else "pop") ++
            " " ++ segmentName segment_type ++ " " ++ intRepr segment_index ++ "\n"
          if cmd = C_PUSH then
            match pushSegmentFragment writer segment_type segment_index with
            | none => (CODE_WRITER_FAIL_WRITE, writer, "")
            | some f =>
                (CODE_WRITER_SUCC, writer,
                 comment ++ f ++ "\n" ++ stack_push_element_assembly ++ "\n")
          else
            if segment_type = MEMORY_SEGMENT_CONSTANT then
              (CODE_WRITER_INVALID_PUSH_POP_SEGMENT, writer, "")
            else
              match store_in_temp_register 13,
                    popSegmentFragment writer segment_type segment_index,
                    store_in_temp_register 14,
                    get_in_temp_register 13 false,
                    get_in_temp_register 14 true with
              | some st13, some af, some st14, some g13, some g14 =>
                  (CODE_WRITER_SUCC, writer,
                   comment ++ stack_get_top_element_assembly ++ "\n" ++
                   store_in_register ++ "\n" ++ st13 ++ "\n" ++ af ++ "\n" ++
                   st14 ++ "\n" ++ g13 ++ "\n" ++ g14 ++ "\n" ++
                   store_in_memory_register ++ "\n")
              | _, _, _, _, _ => (CODE_WRITER_FAIL_WRITE, writer, "")

/-! ## Operational semantics of the emitted Hack assembly

A small pc-based interpreter for exactly the instruction forms that the
code writer emits.  Registers and memory words are `Int`; the 16-bit ALU
wrap is `w16`; `&`/`|` are two's-complement bitwise operations. -/

/-- 16-bit two's-complement wrap into `[-32768, 32767]`. -/
def w16 (z : Int) : Int := (z + 32768) % 65536 - 32768

/-- Destination register of a Hack C-instruction (only single destinations
are emitted). -/
inductive Dest
  | dA | dD | dM
  deriving DecidableEq, Repr

/-- Computation field of a Hack C-instruction (only the emitted forms). -/
inductive Comp
  | cZero | cNegOne | cD | cA | cM
  | cNegD | cNotD | cMminus1 | cMplus1
  | cDplusM | cDminusM | cDandM | cDorM
  deriving DecidableEq, Repr

/-- Jump field of a Hack C-instruction (only the emitted forms). -/
inductive Jmp
  | JEQ | JGT | JLT | JMP
  deriving DecidableEq, Repr

/-- A Hack assembly line as emitted by the code writer: `@number`,
`@symbol`, `dest=comp`, `comp;jump`, or a `(label)` pseudo-instruction. -/
inductive Instr
  | atNum (n : Int)
  | atSym (s : String)
  | mov (d : Dest) (c : Comp)
  | jmp (c : Comp) (j : Jmp)
  | lbl (s : String)
  deriving DecidableEq, Repr

/-- Hack machine state: address register, data register, RAM. -/
structure Mach where
  A : Int
  D : Int
  ram : Int → Int

/-- Value of a computation field in a machine state (`M` is `RAM[A]`). -/
def evalComp (m : Mach) : Comp → Int
  | Comp.cZero => 0
  | Comp.cNegOne => -1
  | Comp.cD => m.D
  | Comp.cA => m.A
  | Comp.cM => m.ram m.A
  | Comp.cNegD => w16 (-m.D)
  | Comp.cNotD => w16 (-m.D - 1)
  | Comp.cMminus1 => w16 (m.ram m.A - 1)
  | Comp.cMplus1 => w16 (m.ram m.A + 1)
  | Comp.cDplusM => w16 (m.D + m.ram m.A)
  | Comp.cDminusM => w16 (m.D - m.ram m.A)
  | Comp.cDandM => Int.land m.D (m.ram m.A)
  | Comp.cDorM => Int.lor m.D (m.ram m.A)

/-- The predefined Hack symbols used by the emitted code. -/
def builtinSym (s : String) : Option Int :=
  if s = "SP" then some 0
  else if s = "LCL" then some 1
  else if s = "ARG" then some 2
  else if s = "THIS" then some 3
  else if s = "THAT" then some 4
  else if s = "R13" then some 13
  else if s = "R14" then some 14
  else if s = "R15" then some 15
  else none

/-- Index of the `(s)` pseudo-instruction in a program. -/
def labelIdx (prog : List Instr) (s : String) : Option Nat :=
  prog.findIdx? (fun i => i == Instr.lbl s)

/-- Jump condition on the computed value. -/
def jmpCond (j : Jmp) (v : Int) : Bool :=
  match j with
  | Jmp.JMP => true
  | Jmp.JEQ => v == 0
  | Jmp.JGT => decide (0 < v)
  | Jmp.JLT => decide (v < 0)

/-- One machine step at `pc`; `none` when the instruction cannot be
resolved (pc out of range or unknown symbol). -/
def step (prog : List Instr) (pc : Nat) (m : Mach) : Option (Nat × Mach) :=
  match prog[pc]? with
  | none => none
  | some instr =>
    match instr with
    | Instr.atNum n => some (pc + 1, { m with A := n })
    | Instr.atSym s =>
        match builtinSym s with
        | some v => some (pc + 1, { m with A := v })
        | none =>
            (labelIdx prog s).map (fun idx => (pc + 1, { m with A := (idx : Int) }))
    | Instr.lbl _ => some (pc + 1, m)
    | Instr.mov d c =>
        let v := evalComp m c
        some (pc + 1,
          match d with
          | Dest.dA => { m with A := v }
          | Dest.dD => { m with D := v }
          | Dest.dM => { m with ram := fun a => if a = m.A then v else m.ram a })
    | Instr.jmp c j =>
        let v := evalComp m c
        some (if jmpCond j v then m.A.toNat else pc + 1, m)

/-- Run with fuel; terminates normally (returning the machine) when the pc
falls past the end of the program. -/
def run (prog : List Instr) : Nat → Nat → Mach → Option Mach
  | 0, _, _ => none
  | fuel + 1, pc, m =>
      if pc < prog.length then
        match step prog pc m with
        | none => none
        | some (pc', m') => run prog fuel pc' m'
      else some m

/-- Rendering of a computation field. -/
def renderComp : Comp → String
  | Comp.cZero => "0" | Comp.cNegOne => "-1" | Comp.cD => "D" | Comp.cA => "A"
  | Comp.cM => "M" | Comp.cNegD => "-D" | Comp.cNotD => "!D"
  | Comp.cMminus1 => "M-1" | Comp.cMplus1 => "M+1" | Comp.cDplusM => "D+M"
  | Comp.cDminusM => "D-M" | Comp.cDandM => "D&M" | Comp.cDorM => "D|M"

/-- Rendering of a destination. -/
def renderDest : Dest → String
  | Dest.dA => "A" | Dest.dD => "D" | Dest.dM => "M"

/-- Rendering of a jump mnemonic. -/
def renderJmp : Jmp → String
  | Jmp.JEQ => "JEQ" | Jmp.JGT => "JGT" | Jmp.JLT => "JLT" | Jmp.JMP => "JMP"

/-- Rendering of one instruction, matching the text the writer emits. -/
def renderInstr : Instr → String
  | Instr.atNum n => "@" ++ intRepr n
  | Instr.atSym s => "@" ++ s
  | Instr.mov d c => renderDest d ++ "=" ++ renderComp c
  | Instr.jmp c j => renderComp c ++ ";" ++ renderJmp j
  | Instr.lbl s => "(" ++ s ++ ")"

/-- Rendering of a program, newline-separated. -/
def renderProg : List Instr → String
  | [] => ""
  | [i] => renderInstr i
  | i :: rest => renderInstr i ++ "\n" ++ renderProg rest

/-- The three instructions of `stack_get_top_element_assembly`. -/
def popTopInstrs : List Instr :=
  [Instr.atSym "SP", Instr.mov Dest.dM Comp.cMminus1, Instr.mov Dest.dA Comp.cM]

/-- The five instructions of `stack_push_element_assembly`. -/
def pushInstrs : List Instr :=
  [Instr.atSym "SP", Instr.mov Dest.dA Comp.cM, Instr.mov Dest.dM Comp.cD,
   Instr.atSym "SP", Instr.mov Dest.dM Comp.cMplus1]

/-- The instruction sequence emitted by `code_writer_write_arithmetic` for a
binary arithmetic/bitwise operation with computation `c` (pop the top of
stack into D, pop again leaving the second value in M, compute `D = D c M`,
push D). -/
def arithBinaryInstrs (c : Comp) : List Instr :=
  popTopInstrs ++ [Instr.mov Dest.dD Comp.cM] ++ popTopInstrs ++
  [Instr.mov Dest.dD c] ++ pushInstrs

/-- The instruction sequence emitted by `code_writer_write_arithmetic` for a
boolean comparison with jump `j` and boolean counter `n`. -/
def booleanInstrs (j : Jmp) (n : Nat) : List Instr :=
  popTopInstrs ++ [Instr.mov Dest.dD Comp.cM] ++ popTopInstrs ++
  [Instr.mov Dest.dD Comp.cDminusM,
   Instr.atSym (booleanTrueLabel n), Instr.jmp Comp.cD j,
   Instr.mov Dest.dD Comp.cZero,
   Instr.atSym (booleanContinueLabel n), Instr.jmp Comp.cZero Jmp.JMP,
   Instr.lbl (booleanTrueLabel n), Instr.mov Dest.dD Comp.cNegOne,
   Instr.lbl (booleanContinueLabel n)] ++ pushInstrs

/-! ## Helper lemmas: labels, symbol resolution, program indexing -/

theorem booleanTrueLabel_ne_continue (m n : Nat) :
    booleanTrueLabel m ≠ booleanContinueLabel n := by
  intro h
  have hd := congrArg String.data h
  simp [booleanTrueLabel, booleanContinueLabel, String.data_append, natRepr] at hd

theorem booleanTrueLabel_inj {m n : Nat}
    (h : booleanTrueLabel m = booleanTrueLabel n) : m = n := by
  have hd := congrArg String.data h
  simp [booleanTrueLabel, String.data_append, natRepr] at hd
  exact natReprChars_injective hd

theorem booleanContinueLabel_inj {m n : Nat}
    (h : booleanContinueLabel m = booleanContinueLabel n) : m = n := by
  have hd := congrArg String.data h
  simp [booleanContinueLabel, String.data_append, natRepr] at hd
  exact natReprChars_injective hd

theorem builtin_SP : builtinSym "SP" = some 0 := rfl

theorem builtin_booleanTrue (n : Nat) : builtinSym (booleanTrueLabel n) = none := by
  simp only [builtinSym]
  repeat rw [if_neg]
  all_goals intro hh
  all_goals have hd := congrArg String.data hh
  all_goals simp [booleanTrueLabel, String.data_append, natRepr] at hd

theorem builtin_booleanCont (n : Nat) : builtinSym (booleanContinueLabel n) = none := by
  simp only [builtinSym]
  repeat rw [if_neg]
  all_goals intro hh
  all_goals have hd := congrArg String.data hh
  all_goals simp [booleanContinueLabel, String.data_append, natRepr] at hd

theorem labelIdx_boolean_true (j : Jmp) (n : Nat) :
    labelIdx (booleanInstrs j n) (booleanTrueLabel n) = some 13 := by
  simp [labelIdx, booleanInstrs, popTopInstrs, pushInstrs, List.findIdx?_cons]

theorem labelIdx_boolean_cont (j : Jmp) (n : Nat) :
    labelIdx (booleanInstrs j n) (booleanContinueLabel n) = some 15 := by
  simp [labelIdx, booleanInstrs, popTopInstrs, pushInstrs, List.findIdx?_cons,
    booleanTrueLabel_ne_continue]

theorem jmpCond_JMP (v : Int) : jmpCond Jmp.JMP v = true := rfl

theorem bI_len (j : Jmp) (n : Nat) : (booleanInstrs j n).length = 21 := rfl

theorem bI_g0 (j : Jmp) (n : Nat) : (booleanInstrs j n)[0]? = some (Instr.atSym "SP") := rfl

theorem bI_g1 (j : Jmp) (n : Nat) : (booleanInstrs j n)[1]? = some (Instr.mov Dest.dM Comp.cMminus1) := rfl

theorem bI_g2 (j : Jmp) (n : Nat) : (booleanInstrs j n)[2]? = some (Instr.mov Dest.dA Comp.cM) := rfl

theorem bI_g3 (j : Jmp) (n : Nat) : (booleanInstrs j n)[3]? = some (Instr.mov Dest.dD Comp.cM) := rfl

theorem bI_g4 (j : Jmp) (n : Nat) : (booleanInstrs j n)[4]? = some (Instr.atSym "SP") := rfl

theorem bI_g5 (j : Jmp) (n : Nat) : (booleanInstrs j n)[5]? = some (Instr.mov Dest.dM Comp.cMminus1) := rfl

theorem bI_g6 (j : Jmp) (n : Nat) : (booleanInstrs j n)[6]? = some (Instr.mov Dest.dA Comp.cM) := rfl

theorem bI_g7 (j : Jmp) (n : Nat) : (booleanInstrs j n)[7]? = some (Instr.mov Dest.dD Comp.cDminusM) := rfl

theorem bI_g8 (j : Jmp) (n : Nat) : (booleanInstrs j n)[8]? = some (Instr.atSym (booleanTrueLabel n)) := rfl

theorem bI_g9 (j : Jmp) (n : Nat) : (booleanInstrs j n)[9]? = some (Instr.jmp Comp.cD j) := rfl

theorem bI_g10 (j : Jmp) (n : Nat) : (booleanInstrs j n)[10]? = some (Instr.mov Dest.dD Comp.cZero) := rfl

theorem bI_g11 (j : Jmp) (n : Nat) : (booleanInstrs j n)[11]? = some (Instr.atSym (booleanContinueLabel n)) := rfl

theorem bI_g12 (j : Jmp) (n : Nat) : (booleanInstrs j n)[12]? = some (Instr.jmp Comp.cZero Jmp.JMP) := rfl

theorem bI_g13 (j : Jmp) (n : Nat) : (booleanInstrs j n)[13]? = some (Instr.lbl (booleanTrueLabel n)) := rfl

theorem bI_g14 (j : Jmp) (n : Nat) : (booleanInstrs j n)[14]? = some (Instr.mov Dest.dD Comp.cNegOne) := rfl

theorem bI_g15 (j : Jmp) (n : Nat) : (booleanInstrs j n)[15]? = some (Instr.lbl (booleanContinueLabel n)) := rfl

theorem bI_g16 (j : Jmp) (n : Nat) : (booleanInstrs j n)[16]? = some (Instr.atSym "SP") := rfl

theorem bI_g17 (j : Jmp) (n : Nat) : (booleanInstrs j n)[17]? = some (Instr.mov Dest.dA Comp.cM) := rfl

theorem bI_g18 (j : Jmp) (n : Nat) : (booleanInstrs j n)[18]? = some (Instr.mov Dest.dM Comp.cD) := rfl

theorem bI_g19 (j : Jmp) (n : Nat) : (booleanInstrs j n)[19]? = some (Instr.atSym "SP") := rfl

theorem bI_g20 (j : Jmp) (n : Nat) : (booleanInstrs j n)[20]? = some (Instr.mov Dest.dM Comp.cMplus1) := rfl

/-- Extracts the text of a `(label)` pseudo-instruction. -/
def labelOf : Instr → Option String
  | Instr.lbl s => some s
  | _ => none

/-- The text emitted by `code_writer_write_arithmetic` for a boolean
comparison is exactly the rendering of `booleanInstrs` (with the writer's
current counter), preceded by the traceability comment. -/
theorem arithmetic_boolean_text (w : CodeWriter) (op : String) (j : Jmp)
    (hop : (op = "eq" ∧ j = Jmp.JEQ) ∨ (op = "gt" ∧ j = Jmp.JGT) ∨
           (op = "lt" ∧ j = Jmp.JLT)) :
    code_writer_write_arithmetic w (some op) =
      (CODE_WRITER_SUCC, { w with boolean_op_count := w.boolean_op_count + 1 },
       "// " ++ op ++ "\n" ++ renderProg (booleanInstrs j w.boolean_op_count) ++ "\n") := by
  rcases hop with ⟨h1, h2⟩ | ⟨h1, h2⟩ | ⟨h1, h2⟩ <;> subst h1 <;> subst h2 <;>
  · simp [code_writer_write_arithmetic, lookupArithmeticCommand,
      arithmetic_logical_cmd_table, write_boolean_operation, arithCommandName,
      stack_get_top_element_assembly, store_in_register, stack_push_element_assembly,
      renderProg, booleanInstrs, popTopInstrs, pushInstrs, renderInstr, renderDest,
      renderComp, renderJmp]
    apply String.ext
    simp [String.data_append]

/-! ## Claim theorems: arithmetic/boolean semantics (C1, C2, C5) -/

/-- Stack fixture for the concrete machine runs: stack pointer 259 in cell 0,
`x` in cell 257 (below top), `y` in cell 258 (top of stack). -/
def testMach (x y : Int) : Mach :=
  { A := 0, D := 0,
    ram := fun i => if i = 0 then 259 else if i = 257 then x else if i = 258 then y else 0 }

/-- C1: the claim states that a binary command pushes `x OP y` (`x` below
top-of-stack `y`), in particular `sub` leaves `x - y`.  The code pops the
top of stack `y` into the data register (no scratch cell is used), pops
again leaving `x` in the memory register, and computes `D = D - M = y - x`:
on the stack `x = 5` below `y = 3`, the emitted `sub` sequence (whose text
is exactly what `code_writer_write_arithmetic` appends) leaves `3 - 5 = -2`
on the stack top, not `5 - 3 = 2` as the claim requires. -/
theorem sub_emitted_code_pushes_y_minus_x :
    (code_writer_write_arithmetic code_writer_init (some "sub")).2.2 =
      "// sub\n" ++ renderProg (arithBinaryInstrs Comp.cDminusM) ++ "\n" ∧
    (run (arithBinaryInstrs Comp.cDminusM) 25 0 (testMach 5 3)).map
      (fun m => m.ram 257) = some (3 - 5) ∧
    (3 - 5 : Int) ≠ 5 - 3 := by
  refine ⟨by rfl, by rfl, by decide⟩

/-- C2: the claim states that `gt` pushes the true sentinel exactly when
`x > y` (`x` below top-of-stack `y`).  The emitted code computes
`D = y - x` and jumps on `D;JGT`, so it pushes the true sentinel when
`y > x`: with `x = 0` below `y = 1` the claim requires the false sentinel
(`0 > 1` is false) but the emitted sequence pushes `-1`. -/
theorem gt_emitted_code_true_when_top_greater :
    (code_writer_write_arithmetic code_writer_init (some "gt")).2.2 =
      "// gt\n" ++ renderProg (booleanInstrs Jmp.JGT 0) ++ "\n" ∧
    (run (booleanInstrs Jmp.JGT 0) 25 0 (testMach 0 1)).map
      (fun m => m.ram 257) = some (-1) ∧
    ¬ ((0 : Int) > 1) := by
  refine ⟨by rfl, by rfl, by decide⟩

/-- C5: for all operand pairs `x, y` (including equal, zero and negative
values) and any boolean-branch counter value, the value pushed by the
emitted `eq`/`gt`/`lt` sequence is exactly the true sentinel `-1` or
exactly the false sentinel `0` — never any other bit pattern. -/
theorem boolean_result_is_sentinel (j : Jmp) (n : Nat) (x y sp : Int)
    (ram : Int → Int) (hsp : 2 < sp) (hsp2 : sp ≤ 32767)
    (h0 : ram 0 = sp) (hy : ram (sp - 1) = y) (hx : ram (sp - 2) = x) :
    (run (booleanInstrs j n) 25 0 ⟨0, 0, ram⟩).map (fun m => m.ram (sp - 2)) =
      some (-1) ∨
    (run (booleanInstrs j n) 25 0 ⟨0, 0, ram⟩).map (fun m => m.ram (sp - 2)) =
      some 0 := by
  have hne1 : ¬ (sp - 1 = 0) := by omega
  have hne2 : ¬ (sp - 2 = 0) := by omega
  have hw1 : w16 (sp - 1) = sp - 1 := by unfold w16; omega
  have hw2 : w16 (sp - 1 - 1) = sp - 2 := by unfold w16; omega
  have hw3 : w16 (sp - 2 + 1) = sp - 1 := by unfold w16; omega
  by_cases hc : jmpCond j (w16 (y - x)) = true
  · left
    simp [run, step, evalComp, bI_len, bI_g0, bI_g1, bI_g2, bI_g3, bI_g4, bI_g5,
      bI_g6, bI_g7, bI_g8, bI_g9, bI_g10, bI_g11, bI_g12, bI_g13, bI_g14, bI_g15,
      bI_g16, bI_g17, bI_g18, bI_g19, bI_g20,
      builtin_SP, builtin_booleanTrue, builtin_booleanCont, labelIdx_boolean_true,
      labelIdx_boolean_cont, jmpCond_JMP, h0, hy, hx, hne1, hne2, hw1, hw2, hw3, hc,
      -List.getElem?_eq_getElem]
  · right
    simp [run, step, evalComp, bI_len, bI_g0, bI_g1, bI_g2, bI_g3, bI_g4, bI_g5,
      bI_g6, bI_g7, bI_g8, bI_g9, bI_g10, bI_g11, bI_g12, bI_g13, bI_g14, bI_g15,
      bI_g16, bI_g17, bI_g18, bI_g19, bI_g20,
      builtin_SP, builtin_booleanTrue, builtin_booleanCont, labelIdx_boolean_true,
      labelIdx_boolean_cont, jmpCond_JMP, h0, hy, hx, hne1, hne2, hw1, hw2, hw3, hc,
      -List.getElem?_eq_getElem]

/-- Witness for `boolean_result_is_sentinel` at `j = JEQ`, `n = 0`,
`x = y = 5`, `sp = 259`. -/
theorem boolean_result_is_sentinel_witness :
    (run (booleanInstrs Jmp.JEQ 0) 25 0 ⟨0, 0, (testMach 5 5).ram⟩).map
      (fun m => m.ram (259 - 2)) = some (-1) ∨
    (run (booleanInstrs Jmp.JEQ 0) 25 0 ⟨0, 0, (testMach 5 5).ram⟩).map
      (fun m => m.ram (259 - 2)) = some 0 :=
  boolean_result_is_sentinel Jmp.JEQ 0 5 5 259 (testMach 5 5).ram
    (by norm_num) (by norm_num) (by norm_num [testMach])
    (by norm_num [testMach]) (by norm_num [testMach])

/-- C3: every emitted boolean comparison (`eq`/`gt`/`lt`) succeeds, emits
exactly the boolean template instantiated with the writer's current
`boolean_op_count` (whose two freshly minted branch labels are
`booleanLabels` of that counter value) and then increments the counter;
and for two different counter values the two label pairs are disjoint, so
labels of distinct boolean comparisons in one run never collide. -/
theorem boolean_labels_fresh_and_disjoint :
    (∀ (w : CodeWriter) (op : String) (j : Jmp),
      (op = "eq" ∧ j = Jmp.JEQ) ∨ (op = "gt" ∧ j = Jmp.JGT) ∨
        (op = "lt" ∧ j = Jmp.JLT) →
      code_writer_write_arithmetic w (some op) =
        (CODE_WRITER_SUCC, { w with boolean_op_count := w.boolean_op_count + 1 },
         "// " ++ op ++ "\n" ++ renderProg (booleanInstrs j w.boolean_op_count) ++ "\n")) ∧
    (∀ (j : Jmp) (n : Nat), (booleanInstrs j n).filterMap labelOf = booleanLabels n) ∧
    (∀ m n : Nat, m ≠ n → ∀ s, s ∈ booleanLabels m → s ∉ booleanLabels n) := by
  refine ⟨arithmetic_boolean_text, fun j n => rfl, ?_⟩
  intro m n hmn s hsm hsn
  simp [booleanLabels] at hsm hsn
  rcases hsm with h1 | h1 <;> rcases hsn with h2 | h2 <;> rw [h1] at h2
  · exact hmn (booleanTrueLabel_inj h2)
  · exact booleanTrueLabel_ne_continue m n h2
  · exact booleanTrueLabel_ne_continue n m h2.symm
  · exact hmn (booleanContinueLabel_inj h2)

theorem boolean_labels_fresh_and_disjoint_witness :
    code_writer_write_arithmetic code_writer_init (some "eq") =
      (CODE_WRITER_SUCC,
       { code_writer_init with boolean_op_count := code_writer_init.boolean_op_count + 1 },
       "// " ++ "eq" ++ "\n" ++
         renderProg (booleanInstrs Jmp.JEQ code_writer_init.boolean_op_count) ++ "\n") ∧
    booleanTrueLabel 0 ∉ booleanLabels 1 :=
  ⟨boolean_labels_fresh_and_disjoint.1 code_writer_init "eq" Jmp.JEQ (Or.inl ⟨rfl, rfl⟩),
   boolean_labels_fresh_and_disjoint.2.2 0 1 (by decide) (booleanTrueLabel 0)
     (by simp [booleanLabels])⟩

/-- C4: each validation failure of the code writer — unknown arithmetic
mnemonic, unknown segment name, negative index, pop with segment
`constant` — returns its specific error status, appends nothing to the
output, and leaves the writer state (in particular the boolean branch
counter) unchanged, so the writer remains usable afterwards. -/
theorem writer_validation_failures_are_local (w : CodeWriter) :
    (∀ s : String, lookupArithmeticCommand s = none →
      code_writer_write_arithmetic w (some s) =
        (CODE_WRITER_INVALID_ARITHMETIC_CMD, w, "")) ∧
    (∀ (cmd : CommandType) (seg : String) (i : Int),
      (cmd = C_PUSH ∨ cmd = C_POP) → lookupMemorySegment seg = none →
      code_writer_write_push_pop w cmd (some seg) i =
        (CODE_WRITER_INVALID_PUSH_POP_SEGMENT, w, "")) ∧
    (∀ (cmd : CommandType) (seg : String) (st : MemorySegmentType) (i : Int),
      (cmd = C_PUSH ∨ cmd = C_POP) → lookupMemorySegment seg = some st → i < 0 →
      code_writer_write_push_pop w cmd (some seg) i =
        (CODE_WRITER_INVALID_PUSH_POP_INDEX, w, "")) ∧
    (∀ i : Int, 0 ≤ i →
      code_writer_write_push_pop w C_POP (some "constant") i =
        (CODE_WRITER_INVALID_PUSH_POP_SEGMENT, w, "")) := by
  refine ⟨?_, ?_, ?_, ?_⟩
  · intro s h
    simp [code_writer_write_arithmetic, h]
  · intro cmd seg i hcmd h
    rcases hcmd with h1 | h1 <;> subst h1 <;> simp [code_writer_write_push_pop, h]
  · intro cmd seg st i hcmd h hi
    rcases hcmd with h1 | h1 <;> subst h1 <;> simp [code_writer_write_push_pop, h, hi]
  · intro i hi
    have hnl : ¬ i < 0 := not_lt.mpr hi
    simp [code_writer_write_push_pop, lookupMemorySegment, memory_segment_table, hnl]

theorem writer_validation_failures_are_local_witness :
    code_writer_write_arithmetic code_writer_init (some "foo") =
      (CODE_WRITER_INVALID_ARITHMETIC_CMD, code_writer_init, "") ∧
    code_writer_write_push_pop code_writer_init C_PUSH (some "heap") 0 =
      (CODE_WRITER_INVALID_PUSH_POP_SEGMENT, code_writer_init, "") ∧
    code_writer_write_push_pop code_writer_init C_POP (some "local") (-1) =
      (CODE_WRITER_INVALID_PUSH_POP_INDEX, code_writer_init, "") ∧
    code_writer_write_push_pop code_writer_init C_POP (some "constant") 3 =
      (CODE_WRITER_INVALID_PUSH_POP_SEGMENT, code_writer_init, "") :=
  ⟨(writer_validation_failures_are_local code_writer_init).1 "foo" (by decide),
   (writer_validation_failures_are_local code_writer_init).2.1 C_PUSH "heap" 0
     (Or.inl rfl) (by decide),
   (writer_validation_failures_are_local code_writer_init).2.2.1 C_POP "local"
     MEMORY_SEGMENT_LOCAL (-1) (Or.inr rfl) (by decide) (by decide),
   (writer_validation_failures_are_local code_writer_init).2.2.2 3 (by decide)⟩

/-- C10: degenerate arguments are rejected with an error status and no
output: a NULL arithmetic command yields the invalid-arithmetic status, a
NULL segment (with a push/pop command type) yields the invalid-segment
status, and a command type other than push/pop yields the
invalid-push-pop-command status. -/
theorem null_and_wrong_type_arguments_rejected (w : CodeWriter) (i : Int)
    (seg : Option String) (cmd : CommandType) :
    code_writer_write_arithmetic w none =
      (CODE_WRITER_INVALID_ARITHMETIC_CMD, w, "") ∧
    ((cmd = C_PUSH ∨ cmd = C_POP) →
      code_writer_write_push_pop w cmd none i =
        (CODE_WRITER_INVALID_PUSH_POP_SEGMENT, w, "")) ∧
    (¬ (cmd = C_PUSH ∨ cmd = C_POP) →
      code_writer_write_push_pop w cmd seg i =
        (CODE_WRITER_INVALID_PUSH_POP_CMD, w, "")) := by
  refine ⟨rfl, ?_, ?_⟩
  · intro hcmd
    rcases hcmd with h1 | h1 <;> subst h1 <;> rfl
  · intro hcmd
    push_neg at hcmd
    simp [code_writer_write_push_pop, hcmd.1, hcmd.2]

theorem null_and_wrong_type_arguments_rejected_witness :
    code_writer_write_arithmetic code_writer_init none =
      (CODE_WRITER_INVALID_ARITHMETIC_CMD, code_writer_init, "") ∧
    code_writer_write_push_pop code_writer_init C_PUSH none 0 =
      (CODE_WRITER_INVALID_PUSH_POP_SEGMENT, code_writer_init, "") ∧
    code_writer_write_push_pop code_writer_init C_LABEL (some "local") 0 =
      (CODE_WRITER_INVALID_PUSH_POP_CMD, code_writer_init, "") :=
  ⟨(null_and_wrong_type_arguments_rejected code_writer_init 0 (some "local") C_PUSH).1,
   (null_and_wrong_type_arguments_rejected code_writer_init 0 (some "local") C_PUSH).2.1
     (Or.inl rfl),
   (null_and_wrong_type_arguments_rejected code_writer_init 0 (some "local") C_LABEL).2.2
     (by decide)⟩

theorem intRepr_13 : intRepr 13 = "13" := by
  have h : Nat.digits 10 13 = [3, 1] := by norm_num
  simp [intRepr, natRepr, natReprChars, h, digitChar]

theorem intRepr_14 : intRepr 14 = "14" := by
  have h : Nat.digits 10 14 = [4, 1] := by norm_num
  simp [intRepr, natRepr, natReprChars, h, digitChar]

/-- C9: push/pop on segment `pointer` emits an access to the fixed cell
`R(3+index)` and succeeds exactly for index 0..1, on segment `temp` to the
fixed cell `R(5+index)` for index 0..7; any index outside these ranges
fails (`FAIL_WRITE`, or the invalid-index status for negative indices)
with nothing appended to the output. -/
theorem pointer_temp_segment_bases_and_ranges (w : CodeWriter) (cmd : CommandType)
    (i : Int) (hcmd : cmd = C_PUSH ∨ cmd = C_POP) :
    (0 ≤ i → i < 2 →
      (code_writer_write_push_pop w cmd (some "pointer") i).1 = CODE_WRITER_SUCC ∧
      ∃ pre post, (code_writer_write_push_pop w cmd (some "pointer") i).2.2 =
        pre ++ ("@R" ++ intRepr (3 + i) ++ "\n") ++ post) ∧
    (2 ≤ i → code_writer_write_push_pop w cmd (some "pointer") i =
      (CODE_WRITER_FAIL_WRITE, w, "")) ∧
    (0 ≤ i → i < 8 →
      (code_writer_write_push_pop w cmd (some "temp") i).1 = CODE_WRITER_SUCC ∧
      ∃ pre post, (code_writer_write_push_pop w cmd (some "temp") i).2.2 =
        pre ++ ("@R" ++ intRepr (5 + i) ++ "\n") ++ post) ∧
    (8 ≤ i → code_writer_write_push_pop w cmd (some "temp") i =
      (CODE_WRITER_FAIL_WRITE, w, "")) ∧
    (i < 0 →
      code_writer_write_push_pop w cmd (some "pointer") i =
        (CODE_WRITER_INVALID_PUSH_POP_INDEX, w, "") ∧
      code_writer_write_push_pop w cmd (some "temp") i =
        (CODE_WRITER_INVALID_PUSH_POP_INDEX, w, "")) := by
  have hlp : lookupMemorySegment "pointer" = some MEMORY_SEGMENT_POINTER := by decide
  have hlt : lookupMemorySegment "temp" = some MEMORY_SEGMENT_TEMP := by decide
  refine ⟨?_, ?_, ?_, ?_, ?_⟩
  · intro h0 h2
    have hnl : ¬ i < 0 := not_lt.mpr h0
    have hge : ¬ i ≥ 2 := not_le.mpr h2
    rcases hcmd with h1 | h1 <;> subst h1 <;>
      simp [code_writer_write_push_pop, hlp, hnl, hge, pushSegmentFragment,
        popSegmentFragment, write_virtual_segment, store_in_temp_register,
        get_in_temp_register, segmentName, stack_get_top_element_assembly,
        store_in_register, store_in_memory_register, stack_push_element_assembly]
    · exact ⟨"// push pointer " ++ intRepr i ++ "\n",
        "D=M\n@SP\nA=M\nM=D\n@SP\nM=M+1\n", by
          apply String.ext
          simp [String.data_append, intRepr_13, intRepr_14]⟩
    · exact ⟨"// pop pointer " ++ intRepr i ++ "\n@SP\nM=M-1\nA=M\nD=M\n@R13\nM=D\n",
        "D=A\n@R14\nM=D\n@R13\nD=M\n@R14\nA=M\nM=D\n", by
          apply String.ext
          simp [String.data_append, intRepr_13, intRepr_14]⟩
  · intro h2
    have hnl : ¬ i < 0 := by omega
    have hge : i ≥ 2 := h2
    rcases hcmd with h1 | h1 <;> subst h1 <;>
      simp [code_writer_write_push_pop, hlp, hnl, hge, pushSegmentFragment,
        popSegmentFragment, write_virtual_segment, segmentName]
  · intro h0 h8
    have hnl : ¬ i < 0 := not_lt.mpr h0
    have hge : ¬ i ≥ 8 := not_le.mpr h8
    rcases hcmd with h1 | h1 <;> subst h1 <;>
      simp [code_writer_write_push_pop, hlt, hnl, hge, pushSegmentFragment,
        popSegmentFragment, write_virtual_segment, store_in_temp_register,
        get_in_temp_register, segmentName, stack_get_top_element_assembly,
        store_in_register, store_in_memory_register, stack_push_element_assembly]
    · exact ⟨"// push temp " ++ intRepr i ++ "\n",
        "D=M\n@SP\nA=M\nM=D\n@SP\nM=M+1\n", by
          apply String.ext
          simp [String.data_append, intRepr_13, intRepr_14]⟩
    · exact ⟨"// pop temp " ++ intRepr i ++ "\n@SP\nM=M-1\nA=M\nD=M\n@R13\nM=D\n",
        "D=A\n@R14\nM=D\n@R13\nD=M\n@R14\nA=M\nM=D\n", by
          apply String.ext
          simp [String.data_append, intRepr_13, intRepr_14]⟩
  · intro h8
    have hnl : ¬ i < 0 := by omega
    rcases hcmd with h1 | h1 <;> subst h1 <;>
      simp [code_writer_write_push_pop, hlt, hnl, h8, pushSegmentFragment,
        popSegmentFragment, write_virtual_segment, segmentName]
  · intro hneg
    rcases hcmd with h1 | h1 <;> subst h1 <;>
      exact ⟨by simp [code_writer_write_push_pop, hlp, hneg],
             by simp [code_writer_write_push_pop, hlt, hneg]⟩

/-- Witness for `pointer_temp_segment_bases_and_ranges` at `cmd = C_PUSH`,
`i = 1`. -/
theorem pointer_temp_segment_bases_and_ranges_witness :
    (code_writer_write_push_pop code_writer_init C_PUSH (some "pointer") 1).1 =
      CODE_WRITER_SUCC ∧
    ∃ pre post,
      (code_writer_write_push_pop code_writer_init C_PUSH (some "pointer") 1).2.2 =
        pre ++ ("@R" ++ intRepr (3 + 1) ++ "
") ++ post :=
  (pointer_temp_segment_bases_and_ranges code_writer_init C_PUSH 1 (Or.inl rfl)).1
    (by norm_num) (by norm_num)

/-! ## Parser model (from `parser.c` / `parser.h`) -/

/-- C `isspace` in the C locale. -/
def isSpaceC (c : Char) : Bool :=
  c == ' ' || c == '\t' || c == '\n' || c == '\x0b' || c == '\x0c' || c == '\r'

/-- Character class accepted inside a symbol by `is_label_valid`
(`isalnum` in the C locale, or one of `_ . $ :`). -/
def isSymbolChar (c : Char) : Bool :=
  c.isAlphanum || c == '_' || c == '.' || c == '$' || c == ':'

/-- `is_label_valid` from `parser.c`: reject when the first character is a
digit, then scan from the start over symbol characters and accept exactly
when the scan reaches the terminator.  (On the empty string the digit test
sees the terminator and the scan ends immediately, so it is accepted.) -/
def is_label_valid (label : List Char) : Bool :=
  match label with
  | [] => true
  | c :: _ =>
      if c.isDigit then false
      else label.all isSymbolChar

/-- Decimal value of a digit string, as accumulated by `strtoul`-style
conversion. -/
def decimalValue (ds : List Char) : Nat :=
  ds.foldl (fun acc c => acc * 10 + charToDigit c) 0

/-- `sscanf` `%Ns` conversion: skip whitespace, then read at most `maxw`
non-whitespace characters; the conversion fails when it reads none.
Returns the token and the input that remains after it. -/
def scanString (maxw : Nat) (input : List Char) : Option (List Char × List Char) :=
  let rest := input.dropWhile (fun c => isSpaceC c)
  let tok := (rest.takeWhile (fun c => !isSpaceC c)).take maxw
  if tok.isEmpty then none else some (tok, rest.drop tok.length)

/-- `sscanf` `%u` conversion: skip whitespace, then read a nonempty run of
decimal digits; the value wraps mod 2^32 as with glibc out-of-range
conversion to `unsigned int`.  (The optional sign glibc accepts for `%u`
is not exercised by any claim and is not modelled.) -/
def scanUnsigned (input : List Char) : Option (Nat × List Char) :=
  let rest := input.dropWhile (fun c => isSpaceC c)
  let ds := rest.takeWhile (fun c => c.isDigit)
  if ds.isEmpty then none
  else some (decimalValue ds % 2 ^ 32, rest.drop ds.length)

/-- Literal (non-whitespace) directive characters of an `sscanf` format:
they must match the input exactly. -/
def scanLiteral (lit : List Char) (input : List Char) : Option (List Char) :=
  if input.take lit.length = lit then some (input.drop lit.length) else none

/-- An `sscanf` call with format `"<kw> %32s"` (as in the label / goto /
if-goto branches of `parser_advance`): returns the symbol when the call
returns 1. -/
def scanSymbolAfter (kw : List Char) (input : List Char) : Option (List Char) :=
  (scanLiteral kw input).bind fun r => (scanString 32 r).map (fun t => t.1)

/-- An `sscanf` call with format `"<kw> %32s %u"` (as in the function /
call branches of `parser_advance`): returns symbol and count when the
call returns 2. -/
def scanSymbolNumAfter (kw : List Char) (input : List Char) :
    Option (List Char × Nat) :=
  (scanLiteral kw input).bind fun r =>
    (scanString 32 r).bind fun t =>
      (scanUnsigned t.2).map (fun v => (t.1, v.1))

/-- Result of the catch-all `sscanf(current_line, "%4s %8s %u", ...)`
call of `parser_advance`, by number of successful conversions. -/
inductive GenericScan
  | zero
  | one (t1 : List Char)
  | two
  | three (t1 t2 : List Char) (v : Nat)
  deriving DecidableEq, Repr

/-- The catch-all `sscanf` with format `"%4s %8s %u"`. -/
def scanGeneric (input : List Char) : GenericScan :=
  match scanString 4 input with
  | none => GenericScan.zero
  | some (t1, r1) =>
    match scanString 8 r1 with
    | none => GenericScan.one t1
    | some (t2, r2) =>
      match scanUnsigned r2 with
      | none => GenericScan.two
      | some (v, _) => GenericScan.three t1 t2 v

/-- `PARSED_COMMAND_ARG1_MAX_LENGTH + 1 = 9`: `strncpy` copies at most 9
bytes into `arg1` (for longer symbols the C copy is not NUL-terminated;
the model keeps the 9-character prefix). -/
def ARG1_CAPACITY : Nat := 9

/-- `struct ParsedCommand` from `parser.c`. -/
structure ParsedCommand where
  type : CommandType
  arg1 : List Char
  arg2 : Nat
  deriving DecidableEq, Repr

/-- The classification chain of `parser_advance` (`parser.c`, lines
136-241), applied to an already cleaned (comment-stripped, trimmed,
nonempty) line.  `none` models the `fprintf(stderr, "syntax error")` +
`return false` paths;  `some` carries the updated current command (each
branch overwrites only the fields the C assigns, so unparsed fields keep
their previous values). -/
def classify_line (prev : ParsedCommand) (line : List Char) : Option ParsedCommand :=
  if line = "return".data then
    some { prev with type := C_RETURN }
  else
    match scanSymbolAfter "label".data line with
    | some sym =>
        if is_label_valid sym then
          some { prev with type := C_LABEL, arg1 := sym.take ARG1_CAPACITY }
        else none
    | none =>
    match scanSymbolAfter "if-goto".data line with
    | some sym =>
        if is_label_valid sym then
          some { prev with type := C_IF, arg1 := sym.take ARG1_CAPACITY }
        else none
    | none =>
    match scanSymbolAfter "goto".data line with
    | some sym =>
        if is_label_valid sym then
          some { prev with type := C_GOTO, arg1 := sym.take ARG1_CAPACITY }
        else none
    | none =>
    match scanSymbolNumAfter "function".data line with
    | some (sym, v) =>
        if is_label_valid sym then
          some { prev with type := C_FUNCTION, arg1 := sym.take ARG1_CAPACITY, arg2 := v }
        else none
    | none =>
    match scanSymbolNumAfter "call".data line with
    | some (sym, v) =>
        if is_label_valid sym then
          some { prev with type := C_CALL, arg1 := sym.take ARG1_CAPACITY, arg2 := v }
        else none
    | none =>
    match scanGeneric line with
    | GenericScan.one t1 =>
        some { prev with type := C_ARITHMETIC, arg1 := t1.take ARG1_CAPACITY }
    | GenericScan.three t1 t2 v =>
        if t1 = "push".data then
          some { prev with type := C_PUSH, arg1 := t2.take ARG1_CAPACITY, arg2 := v }
        else if t1 = "pop".data then
          some { prev with type := C_POP, arg1 := t2.take ARG1_CAPACITY, arg2 := v }
        else none
    | _ => none

/-- Comment stripping of `parser_advance`: everything from the first
occurrence of `//` on is removed. -/
def strip_comment : List Char → List Char
  | [] => []
  | '/' :: '/' :: _ => []
  | c :: rest => c :: strip_comment rest

/-- Leading and trailing whitespace trim of `parser_advance`. -/
def trimChars (l : List Char) : List Char :=
  ((l.dropWhile (fun c => isSpaceC c)).reverse.dropWhile (fun c => isSpaceC c)).reverse

/-- One line after comment stripping and trimming. -/
def cleanLine (l : List Char) : List Char := trimChars (strip_comment l)

/-- `struct Parser`: the input `FILE*` becomes the list of remaining lines;
`input_file_line` counts the lines already consumed (0 at `parser_init`). -/
structure ParserState where
  lines : List (List Char)
  input_file_line : Nat
  current_command : ParsedCommand
  deriving DecidableEq, Repr

/-- Outcome of one `parser_advance` call: success, the
`"parser: syntax error at line %d"` diagnostic (with the line number it
carries), or end of input — the latter two both make the C function
return `false`. -/
inductive AdvanceResult
  | ok
  | parseError (line : Nat)
  | eof
  deriving DecidableEq, Repr

/-- The line loop of `parser_advance`: read lines (counting each), skip
those that clean to empty, classify the first surviving one. -/
def advanceLines (lines : List (List Char)) (lineNo : Nat) (cur : ParsedCommand) :
    AdvanceResult × ParserState :=
  match lines with
  | [] => (AdvanceResult.eof, ⟨[], lineNo, cur⟩)
  | l :: rest =>
      let cl := cleanLine l
      if cl.isEmpty then advanceLines rest (lineNo + 1) cur
      else
        match classify_line cur cl with
        | some c => (AdvanceResult.ok, ⟨rest, lineNo + 1, c⟩)
        | none => (AdvanceResult.parseError (lineNo + 1), ⟨rest, lineNo + 1, cur⟩)

/-- `parser_advance` from `parser.c`. -/
def parser_advance (p : ParserState) : AdvanceResult × ParserState :=
  advanceLines p.lines p.input_file_line p.current_command

/-- `parser_get_line_number` from `parser.c`. -/
def parser_get_line_number (p : ParserState) : Nat := p.input_file_line

/-- One iteration of the `translate_file` loop of `vmtranslator.c`: when
`parser_advance` fails the command is skipped (`continue`) and the writer
is not touched; on success the parsed command is dispatched to the writer
(the dispatch on command kinds is abstracted — only the failure path
matters for the parser claims, and it never reaches the writer). -/
def translate_step (dispatch : CodeWriter → ParsedCommand → CodeWriter × String)
    (w : CodeWriter) (p : ParserState) : CodeWriter × ParserState × String :=
  match parser_advance p with
  | (AdvanceResult.ok, p') =>
      let r := dispatch w p'.current_command
      (r.1, p', r.2)
  | (AdvanceResult.parseError _, p') => (w, p', "")
  | (AdvanceResult.eof, p') => (w, p', "")

theorem isDigit_not_space {c : Char} (h : c.isDigit = true) : isSpaceC c = false := by
  simp [Char.isDigit] at h
  simp only [isSpaceC, Bool.or_eq_false_iff, beq_eq_false_iff_ne, ne_eq]
  refine ⟨⟨⟨⟨⟨?_, ?_⟩, ?_⟩, ?_⟩, ?_⟩, ?_⟩ <;> rintro rfl <;> simp_all

theorem scanString_token (maxw : Nat) (tok rest : List Char) (hne : tok ≠ [])
    (hns : ∀ c ∈ tok, isSpaceC c = false) (hle : tok.length ≤ maxw)
    (hstop : rest.head? = none ∨ ∃ c, rest.head? = some c ∧ isSpaceC c = true) :
    scanString maxw (tok ++ rest) = some (tok, rest) := by
  obtain ⟨c, cs, rfl⟩ : ∃ c cs, tok = c :: cs := by
    cases tok with
    | nil => exact absurd rfl hne
    | cons c cs => exact ⟨c, cs, rfl⟩
  have hdrop : ((c :: cs) ++ rest).dropWhile isSpaceC = (c :: cs) ++ rest := by
    rw [List.cons_append, List.dropWhile_cons_of_neg]
    simp [hns c (List.mem_cons_self c cs)]
  have htw_rest : rest.takeWhile (fun d => !isSpaceC d) = [] := by
    rcases hstop with h | ⟨d, hd, hsp⟩
    · cases rest with
      | nil => rfl
      | cons a t => simp at h
    · cases rest with
      | nil => rfl
      | cons a t =>
          simp at hd
          subst hd
          rw [List.takeWhile_cons_of_neg]
          simp [hsp]
  have htake : ((c :: cs) ++ rest).takeWhile (fun d => !isSpaceC d) = c :: cs := by
    rw [List.takeWhile_append_of_pos]
    · rw [htw_rest, List.append_nil]
    · intro a ha
      simp [hns a ha]
  simp only [scanString, hdrop, htake]
  rw [List.take_of_length_le hle]
  simp [hne, List.drop_left]

theorem scanString_skip_space (maxw : Nat) (l : List Char) :
    scanString maxw (' ' :: l) = scanString maxw l := by
  have h : isSpaceC ' ' = true := rfl
  simp only [scanString, List.dropWhile_cons, h, if_true]

theorem scanUnsigned_digits (ds rest : List Char) (hne : ds ≠ [])
    (hds : ∀ c ∈ ds, c.isDigit = true)
    (hstop : rest.head? = none ∨ ∃ c, rest.head? = some c ∧ c.isDigit = false) :
    scanUnsigned (ds ++ rest) = some (decimalValue ds % 2 ^ 32, rest) := by
  obtain ⟨c, cs, rfl⟩ : ∃ c cs, ds = c :: cs := by
    cases ds with
    | nil => exact absurd rfl hne
    | cons c cs => exact ⟨c, cs, rfl⟩
  have hdrop : ((c :: cs) ++ rest).dropWhile isSpaceC = (c :: cs) ++ rest := by
    rw [List.cons_append, List.dropWhile_cons_of_neg]
    simp [isDigit_not_space (hds c (List.mem_cons_self c cs))]
  have htw_rest : rest.takeWhile (fun d => d.isDigit) = [] := by
    rcases hstop with h | ⟨d, hd, hsp⟩
    · cases rest with
      | nil => rfl
      | cons a t => simp at h
    · cases rest with
      | nil => rfl
      | cons a t =>
          simp at hd
          subst hd
          rw [List.takeWhile_cons_of_neg]
          simp [hsp]
  have htake : ((c :: cs) ++ rest).takeWhile (fun d => d.isDigit) = c :: cs := by
    rw [List.takeWhile_append_of_pos]
    · rw [htw_rest, List.append_nil]
    · intro a ha
      exact hds a ha
  simp only [scanUnsigned, hdrop, htake]
  simp [hne, List.drop_left]

theorem scanUnsigned_skip_space (l : List Char) :
    scanUnsigned (' ' :: l) = scanUnsigned l := by
  have h : isSpaceC ' ' = true := rfl
  simp only [scanUnsigned, List.dropWhile_cons, h, if_true]

theorem scanSymbolAfter_match (kw sym : List Char) (hne : sym ≠ [])
    (hns : ∀ c ∈ sym, isSpaceC c = false) (hle : sym.length ≤ 32) :
    scanSymbolAfter kw (kw ++ ' ' :: sym) = some sym := by
  have h1 : scanString 32 sym = some (sym, []) := by
    have := scanString_token 32 sym [] hne hns hle (Or.inl rfl)
    simpa using this
  simp [scanSymbolAfter, scanLiteral, List.take_left, List.drop_left,
    scanString_skip_space, h1]

theorem scanSymbolNumAfter_match (kw sym ds : List Char) (hne : sym ≠ [])
    (hns : ∀ c ∈ sym, isSpaceC c = false) (hle : sym.length ≤ 32)
    (hdne : ds ≠ []) (hds : ∀ c ∈ ds, c.isDigit = true) :
    scanSymbolNumAfter kw (kw ++ (' ' :: (sym ++ (' ' :: ds)))) =
      some (sym, decimalValue ds % 2 ^ 32) := by
  have h1 : scanString 32 (sym ++ (' ' :: ds)) = some (sym, ' ' :: ds) :=
    scanString_token 32 sym (' ' :: ds) hne hns hle (Or.inr ⟨' ', rfl, rfl⟩)
  have h2 : scanUnsigned ds = some (decimalValue ds % 2 ^ 32, []) := by
    have := scanUnsigned_digits ds [] hdne hds (Or.inl rfl)
    simpa using this
  simp [scanSymbolNumAfter, scanLiteral, List.take_left, List.drop_left,
    scanString_skip_space, h1, scanUnsigned_skip_space, h2]

/-- C6 (amended): `is_label_valid` accepts a string exactly when every
character is a letter, digit, `_`, `.`, `$` or `:` and the first
character (when there is one) is not a digit; in particular the empty
string is accepted (the original claim said it is rejected — see
`is_label_valid_accepts_empty`).  Every non-empty violating symbol makes
the label/goto/if-goto/function/call branches of the parser report a
syntax error (`classify_line` returns `none`). -/
theorem is_label_valid_characterization :
    (∀ s : List Char, is_label_valid s = true ↔
      ((∀ c ∈ s, isSymbolChar c = true) ∧ ∀ c ∈ s.head?, c.isDigit = false)) ∧
    (∀ (prev : ParsedCommand) (sym : List Char),
      is_label_valid sym = false → sym ≠ [] →
      (∀ c ∈ sym, isSpaceC c = false) → sym.length ≤ 32 →
      classify_line prev ("label".data ++ ' ' :: sym) = none ∧
      classify_line prev ("goto".data ++ ' ' :: sym) = none ∧
      classify_line prev ("if-goto".data ++ ' ' :: sym) = none ∧
      classify_line prev ("function".data ++ (' ' :: (sym ++ (' ' :: ['1'])))) = none ∧
      classify_line prev ("call".data ++ (' ' :: (sym ++ (' ' :: ['1'])))) = none) := by
  constructor
  · intro s
    cases s with
    | nil => simp [is_label_valid]
    | cons c cs =>
        by_cases hd : c.isDigit = true
        · simp [is_label_valid, hd]
        · simp only [Bool.not_eq_true] at hd
          simp [is_label_valid, hd, List.all_eq_true]
  · intro prev sym hinv hne hns hle
    have hscan : scanString 32 (' ' :: sym) = some (sym, []) := by
      rw [scanString_skip_space]
      have := scanString_token 32 sym [] hne hns hle (Or.inl rfl)
      simpa using this
    have hscan2 : scanString 32 (' ' :: (sym ++ (' ' :: ['1']))) =
        some (sym, ' ' :: ['1']) := by
      rw [scanString_skip_space]
      exact scanString_token 32 sym (' ' :: ['1']) hne hns hle (Or.inr ⟨' ', rfl, rfl⟩)
    have hu : scanUnsigned (' ' :: ['1']) = some (decimalValue ['1'] % 2 ^ 32, []) := by
      rw [scanUnsigned_skip_space]
      have := scanUnsigned_digits ['1'] [] (by decide) (by decide) (Or.inl rfl)
      simpa using this
    refine ⟨?_, ?_, ?_, ?_, ?_⟩
    · simp [classify_line, hscan, hinv, scanSymbolAfter, scanLiteral]
    · simp [classify_line, hscan, hinv, scanSymbolAfter, scanLiteral]
    · simp [classify_line, hscan, hinv, scanSymbolAfter, scanLiteral]
    · simp [classify_line, hscan2, hu, hinv, scanSymbolAfter, scanSymbolNumAfter,
        scanLiteral]
    · simp [classify_line, hscan2, hu, hinv, scanSymbolAfter, scanSymbolNumAfter,
        scanLiteral]

/-- C8 (amended): a cleaned line consisting of exactly one token is
classified as Arithmetic with that token as operation name provided the
token has at most 4 characters (the `%4s` width of the catch-all
`sscanf`); and a cleaned line `push <seg> <digits>` or `pop <seg> <digits>`
(single-space separated) whose segment token has at most 8 characters
(`%8s`) and whose index token is a digit run is classified Push/Pop with
that segment name and the decimal index value (mod 2^32). -/
theorem classification_of_short_tokens_and_push_pop :
    (∀ (prev : ParsedCommand) (t : List Char),
      t ≠ [] → (∀ c ∈ t, isSpaceC c = false) → t.length ≤ 4 →
      classify_line prev t =
        some { prev with type := C_ARITHMETIC, arg1 := t }) ∧
    (∀ (prev : ParsedCommand) (op : CommandType) (kw seg ds : List Char),
      (kw = "push".data ∧ op = C_PUSH) ∨ (kw = "pop".data ∧ op = C_POP) →
      seg ≠ [] → (∀ c ∈ seg, isSpaceC c = false) → seg.length ≤ 8 →
      ds ≠ [] → (∀ c ∈ ds, c.isDigit = true) →
      classify_line prev (kw ++ (' ' :: (seg ++ (' ' :: ds)))) =
        some { prev with type := op, arg1 := seg, arg2 := decimalValue ds % 2 ^ 32 }) := by
  constructor
  · intro prev t hne hns hlen
    have hret : ¬ (t = "return".data) := by
      intro hh
      have := congrArg List.length hh
      simp at this
      omega
    have hlab : scanLiteral "label".data t = none := by
      simp only [scanLiteral, ite_eq_right_iff, reduceCtorEq]
      intro hh
      exact absurd (congrArg List.length hh) (by simp [List.length_take]; omega)
    have hifg : scanLiteral "if-goto".data t = none := by
      simp only [scanLiteral, ite_eq_right_iff, reduceCtorEq]
      intro hh
      exact absurd (congrArg List.length hh) (by simp [List.length_take]; omega)
    have hfun : scanLiteral "function".data t = none := by
      simp only [scanLiteral, ite_eq_right_iff, reduceCtorEq]
      intro hh
      exact absurd (congrArg List.length hh) (by simp [List.length_take]; omega)
    have hs4 : scanString 4 t = some (t, []) := by
      have := scanString_token 4 t [] hne hns hlen (Or.inl rfl)
      simpa using this
    have hgen : scanGeneric t = GenericScan.one t := by
      simp [scanGeneric, hs4]
      rfl
    have htake : t.take ARG1_CAPACITY = t :=
      List.take_of_length_le (by simp [ARG1_CAPACITY]; omega)
    by_cases hg : t = "goto".data
    · subst hg
      simp [classify_line, scanSymbolAfter, scanLiteral, scanSymbolNumAfter,
        scanString, scanUnsigned, scanGeneric, ARG1_CAPACITY]
      rfl
    · by_cases hc : t = "call".data
      · subst hc
        simp [classify_line, scanSymbolAfter, scanLiteral, scanSymbolNumAfter,
          scanString, scanUnsigned, scanGeneric, ARG1_CAPACITY]
        rfl
      · have hgoto : scanLiteral "goto".data t = none := by
          simp only [scanLiteral, ite_eq_right_iff, reduceCtorEq]
          intro hh
          have h4 : ("goto".data).length = 4 := rfl
          rw [h4, List.take_of_length_le (by omega)] at hh
          exact hg hh
        have hcall : scanLiteral "call".data t = none := by
          simp only [scanLiteral, ite_eq_right_iff, reduceCtorEq]
          intro hh
          have h4 : ("call".data).length = 4 := rfl
          rw [h4, List.take_of_length_le (by omega)] at hh
          exact hc hh
        simp [classify_line, hret, scanSymbolAfter, scanSymbolNumAfter, hlab, hifg,
          hgoto, hfun, hcall, hgen, htake]
  · intro prev op kw seg ds hkw hsne hsns hslen hdne hdds
    have hs8 : scanString 8 (' ' :: (seg ++ (' ' :: ds))) = some (seg, ' ' :: ds) := by
      rw [scanString_skip_space]
      exact scanString_token 8 seg (' ' :: ds) hsne hsns hslen (Or.inr ⟨' ', rfl, rfl⟩)
    have hu : scanUnsigned (' ' :: ds) = some (decimalValue ds % 2 ^ 32, []) := by
      rw [scanUnsigned_skip_space]
      have := scanUnsigned_digits ds [] hdne hdds (Or.inl rfl)
      simpa using this
    have htake : seg.take ARG1_CAPACITY = seg :=
      List.take_of_length_le (by simp [ARG1_CAPACITY]; omega)
    rcases hkw with ⟨h1, h2⟩ | ⟨h1, h2⟩ <;> subst h1 <;> subst h2
    · have hs4 : scanString 4 ("push".data ++ (' ' :: (seg ++ (' ' :: ds)))) =
          some ("push".data, ' ' :: (seg ++ (' ' :: ds))) :=
        scanString_token 4 "push".data (' ' :: (seg ++ (' ' :: ds)))
          (by decide) (by decide) (by decide) (Or.inr ⟨' ', rfl, rfl⟩)
      have hgen : scanGeneric ("push".data ++ (' ' :: (seg ++ (' ' :: ds)))) =
          GenericScan.three "push".data seg (decimalValue ds % 2 ^ 32) := by
        simp only [scanGeneric, hs4, hs8, hu]
      have hgen2 := hgen
      simp at hgen2
      simp [classify_line, scanSymbolAfter, scanSymbolNumAfter, scanLiteral,
        hgen2, htake]
    · have hs4 : scanString 4 ("pop".data ++ (' ' :: (seg ++ (' ' :: ds)))) =
          some ("pop".data, ' ' :: (seg ++ (' ' :: ds))) :=
        scanString_token 4 "pop".data (' ' :: (seg ++ (' ' :: ds)))
          (by decide) (by decide) (by decide) (Or.inr ⟨' ', rfl, rfl⟩)
      have hgen : scanGeneric ("pop".data ++ (' ' :: (seg ++ (' ' :: ds)))) =
          GenericScan.three "pop".data seg (decimalValue ds % 2 ^ 32) := by
        simp only [scanGeneric, hs4, hs8, hu]
      have hgen2 := hgen
      simp at hgen2
      simp [classify_line, scanSymbolAfter, scanSymbolNumAfter, scanLiteral,
        hgen2, htake]

/-- C6 counterexample: the claim as stated requires every violating
string, including the empty string, to be rejected; but `is_label_valid`
accepts the empty string (the digit test sees the terminator and the scan
loop ends immediately). -/
theorem is_label_valid_accepts_empty : is_label_valid [] = true := rfl

theorem is_label_valid_characterization_witness :
    (is_label_valid ['a'] = true ↔
      ((∀ c ∈ ['a'], isSymbolChar c = true) ∧
       ∀ c ∈ (['a'] : List Char).head?, c.isDigit = false)) ∧
    classify_line ⟨C_RETURN, [], 0⟩ ("label".data ++ ' ' :: ['9']) = none :=
  ⟨is_label_valid_characterization.1 ['a'],
   (is_label_valid_characterization.2 ⟨C_RETURN, [], 0⟩ ['9']
     (by decide) (by decide) (by decide) (by decide)).1⟩

/-- C8 counterexample: the claim as stated says every one-token line is
classified Arithmetic with that token as operation name; but the one-token
line `bogus` (5 characters, split by `%4s` into `bogu` and `s`) is a
syntax error. -/
theorem one_token_line_not_always_arithmetic :
    classify_line ⟨C_RETURN, [], 0⟩ "bogus".data = none ∧
    "bogus".data ≠ [] ∧ ("bogus".data.all fun c => !isSpaceC c) = true := by
  decide

theorem classification_of_short_tokens_and_push_pop_witness :
    classify_line ⟨C_RETURN, [], 0⟩ "add".data =
      some { type := C_ARITHMETIC, arg1 := "add".data, arg2 := 0 } ∧
    classify_line ⟨C_RETURN, [], 0⟩
        ("push".data ++ (' ' :: ("constant".data ++ (' ' :: ['7'])))) =
      some { type := C_PUSH, arg1 := "constant".data,
             arg2 := decimalValue ['7'] % 2 ^ 32 } :=
  ⟨classification_of_short_tokens_and_push_pop.1 ⟨C_RETURN, [], 0⟩ "add".data
     (by decide) (by decide) (by decide),
   classification_of_short_tokens_and_push_pop.2 ⟨C_RETURN, [], 0⟩ C_PUSH
     "push".data "constant".data ['7'] (Or.inl ⟨rfl, rfl⟩)
     (by decide) (by decide) (by decide) (by decide) (by decide)⟩

/-- The line loop of `parser_advance` over a run of lines that clean to
empty followed by a surviving line that fails classification. -/
theorem advanceLines_skip (pre : List (List Char)) (bad : List Char)
    (rest : List (List Char)) (cur : ParsedCommand) (n : Nat)
    (hpre : ∀ l ∈ pre, (cleanLine l).isEmpty = true)
    (hbad : (cleanLine bad).isEmpty = false)
    (hfail : classify_line cur (cleanLine bad) = none) :
    advanceLines (pre ++ bad :: rest) n cur =
      (AdvanceResult.parseError (n + pre.length + 1),
       ⟨rest, n + pre.length + 1, cur⟩) := by
  induction pre generalizing n with
  | nil => simp [advanceLines, hbad, hfail]
  | cons a t ih =>
      have ha := hpre a (List.mem_cons_self a t)
      have hrec := ih (n + 1) (fun l hl => hpre l (List.mem_cons_of_mem a hl))
      have harith : n + 1 + t.length + 1 = n + (a :: t).length + 1 := by
        simp [List.length_cons]; omega
      rw [List.cons_append]
      simp only [advanceLines, ha, if_pos]
      rw [hrec, harith]

/-- C7: for every malformed input line (one the classification chain
rejects), `parser_advance` returns failure carrying the line's 1-based
line number (`input_file_line` counts lines already consumed, so the
reported number is the position of the failing line), the current parsed
command is left unchanged, and the driver loop skips the line without
calling any writer entry point, so generator counters are unaltered. -/
theorem malformed_line_reports_error_and_preserves_state
    (p : ParserState) (pre : List (List Char)) (bad : List Char)
    (rest : List (List Char))
    (hlines : p.lines = pre ++ bad :: rest)
    (hpre : ∀ l ∈ pre, (cleanLine l).isEmpty = true)
    (hbad : (cleanLine bad).isEmpty = false)
    (hfail : classify_line p.current_command (cleanLine bad) = none) :
    parser_advance p =
      (AdvanceResult.parseError (p.input_file_line + pre.length + 1),
       ⟨rest, p.input_file_line + pre.length + 1, p.current_command⟩) ∧
    ∀ dispatch w, translate_step dispatch w p = (w, (parser_advance p).2, "") := by
  have h := advanceLines_skip pre bad rest p.current_command p.input_file_line
    hpre hbad hfail
  constructor
  · rw [parser_advance, hlines]
    exact h
  · intro dispatch w
    rw [translate_step]
    rw [parser_advance, hlines, h]

/-- Witness for `malformed_line_reports_error_and_preserves_state` on the
spec's own example, the malformed line `psh constant 3` as the first line
of a fresh parser. -/
theorem malformed_line_reports_error_and_preserves_state_witness :
    parser_advance ⟨["psh constant 3".data], 0, ⟨C_RETURN, [], 0⟩⟩ =
      (AdvanceResult.parseError 1, ⟨[], 1, ⟨C_RETURN, [], 0⟩⟩) ∧
    ∀ dispatch w,
      translate_step dispatch w ⟨["psh constant 3".data], 0, ⟨C_RETURN, [], 0⟩⟩ =
        (w, (parser_advance ⟨["psh constant 3".data], 0, ⟨C_RETURN, [], 0⟩⟩).2, "") := by
  have h := malformed_line_reports_error_and_preserves_state
    ⟨["psh constant 3".data], 0, ⟨C_RETURN, [], 0⟩⟩ [] "psh constant 3".data []
    rfl (by intro l hl; cases hl) (by decide) (by decide)
  exact h
